import Mathlib

/-!
Verification of the hex-grid spatial reference layer.

The definitions below are a shallow embedding of the repository's hex
coordinate utilities (`hexUtils.ts`) and of the terrain / sparse-storage
contract documented in the hex-grid design document.  JavaScript `number`
arithmetic is idealised as real arithmetic over `ℝ`; JavaScript
`Math.round` (round half toward positive infinity) is Mathlib's `round`;
integer-valued quantities are `ℤ`.
-/

/-- Cube coordinate for a hex cell (`HexCoordinate` in `hexUtils.ts`). -/
structure HexCoordinate where
  q : ℤ
  r : ℤ
  s : ℤ
deriving DecidableEq, Repr

/-- 2D point in projected space, meters from origin (`Point` in `hexUtils.ts`). -/
structure Point where
  x : ℝ
  y : ℝ

/-- Center-to-center distance in meters (3 miles): `HEX_CENTER_SPACING_M`. -/
noncomputable def HEX_CENTER_SPACING_M : ℝ := 4828.032

/-- Hex circumradius in meters: `HEX_SIZE_M = HEX_CENTER_SPACING_M / sqrt(3)`. -/
noncomputable def HEX_SIZE_M : ℝ := HEX_CENTER_SPACING_M / Real.sqrt 3

/-- Validation `isValidHexCoordinate`: the cube constraint `q + r + s = 0`. -/
def isValidHexCoordinate (hex : HexCoordinate) : Bool :=
  hex.q + hex.r + hex.s == 0

/-- Conversion `hexToPixel`: hex cube coordinates to pixel offset from origin,
computed directly from the origin rather than by chaining neighbor offsets. -/
noncomputable def hexToPixel (hex : HexCoordinate) : Point :=
  ⟨HEX_SIZE_M * Real.sqrt 3 * ((hex.q : ℝ) + (hex.r : ℝ) / 2),
   HEX_SIZE_M * (3 / 2) * (hex.r : ℝ)⟩

/-- The final normalisation step of `hexRound`: `q === 0 ? 0 : q`, which in
JavaScript converts `-0` to `0`.  On the idealised integers it is the
identity. -/
def normZero (n : ℤ) : ℤ := if n = 0 then 0 else n

/-- Rounding `hexRound`: round all three axes independently, then recompute
the axis with the largest rounding error from the other two. -/
noncomputable def hexRound (qFrac rFrac : ℝ) : HexCoordinate :=
  if |(round qFrac : ℝ) - qFrac| > |(round rFrac : ℝ) - rFrac| ∧
      |(round qFrac : ℝ) - qFrac| > |(round (-qFrac - rFrac) : ℝ) - (-qFrac - rFrac)| then
    ⟨normZero (-round rFrac - round (-qFrac - rFrac)), normZero (round rFrac),
      normZero (round (-qFrac - rFrac))⟩
  else if |(round rFrac : ℝ) - rFrac| > |(round (-qFrac - rFrac) : ℝ) - (-qFrac - rFrac)| then
    ⟨normZero (round qFrac), normZero (-round qFrac - round (-qFrac - rFrac)),
      normZero (round (-qFrac - rFrac))⟩
  else
    ⟨normZero (round qFrac), normZero (round rFrac), normZero (-round qFrac - round rFrac)⟩

/-- Conversion `pixelToHex`: inverse of `hexToPixel`, then `hexRound`. -/
noncomputable def pixelToHex (x y : ℝ) : HexCoordinate :=
  hexRound ((Real.sqrt 3 / 3 * x - 1 / 3 * y) / HEX_SIZE_M) ((2 / 3 * y) / HEX_SIZE_M)

/-- Squared Euclidean distance, in the three-axis cube space, between an
integer hex and the fractional cube point `(qFrac, rFrac, -qFrac-rFrac)`.
Distance in the projected plane is proportional to this quantity, so the
two notions of nearest agree. -/
noncomputable def cubeDistSq (h : HexCoordinate) (qFrac rFrac : ℝ) : ℝ :=
  ((h.q : ℝ) - qFrac) ^ 2 + ((h.r : ℝ) - rFrac) ^ 2
    + ((h.s : ℝ) - (-qFrac - rFrac)) ^ 2

/-- ID generation `getHexId`: the canonical template literal over
`(layer, q, r, s)` with default `layerId = 0`.  Note that the source
performs no validation of the coordinate. -/
def getHexId (hex : HexCoordinate) (layerId : ℤ := 0) : String :=
  "hex:l" ++ toString layerId ++ ":q" ++ toString hex.q ++ ":r" ++ toString hex.r
    ++ ":s" ++ toString hex.s

/-- Display label `getHexLabel`: the coordinates joined by commas. -/
def getHexLabel (hex : HexCoordinate) : String :=
  toString hex.q ++ ", " ++ toString hex.r ++ ", " ++ toString hex.s

/-- Modelled from the spec: the canonical ID string form
`hex:l..:q..:r..:s..` described by the specification, used to compare the
source's generator against the specified canonical shape. -/
def specCanonicalId (layer : ℤ) (hex : HexCoordinate) : String :=
  "hex:l" ++ toString layer ++ ":q" ++ toString hex.q ++ ":r" ++ toString hex.r
    ++ ":s" ++ toString hex.s

/-- Geometry `getHexCorners`: the 6 corner points of a hex, first corner at
30 degrees and then every 60 degrees, each at distance `HEX_SIZE_M` from the
center `hexToPixel hex`. -/
noncomputable def getHexCorners (hex : HexCoordinate) : List Point :=
  (List.range 6).map fun i =>
    ⟨(hexToPixel hex).x + HEX_SIZE_M * Real.cos (Real.pi / 180 * (60 * (i : ℝ) + 30)),
     (hexToPixel hex).y + HEX_SIZE_M * Real.sin (Real.pi / 180 * (60 * (i : ℝ) + 30))⟩

/-- An integer-valued JavaScript number in the IEEE-754 sense: an integer
value plus a flag marking the negative-zero representation.  The flag is
only ever set by the operations below when the value is zero. -/
structure JSInt where
  val : ℤ
  negZero : Bool
deriving DecidableEq, Repr

/-- JavaScript `Math.round` on an idealised real input: rounds half toward
positive infinity, and produces `-0` when the result is zero and the input
was negative. -/
noncomputable def jsRound (x : ℝ) : JSInt :=
  ⟨round x, if round x = 0 ∧ x < 0 then true else false⟩

/-- JavaScript unary negation: flips the sign of a zero. -/
def jsNeg (a : JSInt) : JSInt :=
  if a.val = 0 then ⟨0, !a.negZero⟩ else ⟨-a.val, false⟩

/-- JavaScript subtraction (round-to-nearest): a zero result is `-0`
exactly when the minuend is `-0` and the subtrahend is `+0`. -/
def jsSub (a b : JSInt) : JSInt :=
  if a.val = b.val then ⟨0, a.negZero && !b.negZero && decide (a.val = 0)⟩
  else ⟨a.val - b.val, false⟩

/-- The normalisation `q === 0 ? 0 : q` on a JavaScript number: `-0 === 0`
is true, so both zeros normalise to `+0`. -/
def jsNormZero (a : JSInt) : JSInt :=
  if a.val = 0 then ⟨0, false⟩ else a

/-- Sign-of-zero-aware model of `hexRound`: the same computation as
`hexRound`, with each rounded component and each recomputed component
carrying its IEEE sign of zero, and the source's final normalisation
applied to all three components. -/
noncomputable def hexRoundJS (qFrac rFrac : ℝ) : JSInt × JSInt × JSInt :=
  if |((jsRound qFrac).val : ℝ) - qFrac| > |((jsRound rFrac).val : ℝ) - rFrac| ∧
      |((jsRound qFrac).val : ℝ) - qFrac|
        > |((jsRound (-qFrac - rFrac)).val : ℝ) - (-qFrac - rFrac)| then
    (jsNormZero (jsSub (jsNeg (jsRound rFrac)) (jsRound (-qFrac - rFrac))),
     jsNormZero (jsRound rFrac), jsNormZero (jsRound (-qFrac - rFrac)))
  else if |((jsRound rFrac).val : ℝ) - rFrac|
      > |((jsRound (-qFrac - rFrac)).val : ℝ) - (-qFrac - rFrac)| then
    (jsNormZero (jsRound qFrac),
     jsNormZero (jsSub (jsNeg (jsRound qFrac)) (jsRound (-qFrac - rFrac))),
     jsNormZero (jsRound (-qFrac - rFrac)))
  else
    (jsNormZero (jsRound qFrac), jsNormZero (jsRound rFrac),
     jsNormZero (jsSub (jsNeg (jsRound qFrac)) (jsRound rFrac)))

/-- Sign-of-zero-aware model of `pixelToHex`. -/
noncomputable def pixelToHexJS (x y : ℝ) : JSInt × JSInt × JSInt :=
  hexRoundJS ((Real.sqrt 3 / 3 * x - 1 / 3 * y) / HEX_SIZE_M) ((2 / 3 * y) / HEX_SIZE_M)

/-- Stealth distance entry `[maxDistanceFt, stealthModifier]`; the
`Infinity` threshold of the source is `⊤` in `WithTop ℚ`. -/
abbrev StealthDistanceEntry := WithTop ℚ × ℤ

/-- Terrain type with properties (`TerrainType` in the design document). -/
structure TerrainType where
  name : String
  baseTravelTimeMs : ℤ
  stealthDistanceTable : List StealthDistanceEntry
  navigationDifficulty : ℤ
deriving DecidableEq, Repr

namespace MovementCategory

/-- Movement category EASY: 1 hour per league in milliseconds. -/
def EASY : ℤ := 1 * 60 * 60 * 1000

/-- Movement category MODERATE: 2 hours per league. -/
def MODERATE : ℤ := 2 * 60 * 60 * 1000

/-- Movement category DIFFICULT: 3 hours per league. -/
def DIFFICULT : ℤ := 3 * 60 * 60 * 1000

/-- Movement category EXTREME: 4 hours per league. -/
def EXTREME : ℤ := 4 * 60 * 60 * 1000

/-- Movement category IMPASSABLE: effectively impassable on foot. -/
def IMPASSABLE : ℤ := 99 * 60 * 60 * 1000

end MovementCategory

/-- Visibility table `VISIBILITY_OPEN`. -/
def VISIBILITY_OPEN : List StealthDistanceEntry :=
  [(20, -15), (40, -10), (80, -5), (160, 0), (320, 5), (640, 10), (⊤, 15)]

/-- Visibility table `VISIBILITY_LIGHT_COVER`. -/
def VISIBILITY_LIGHT_COVER : List StealthDistanceEntry :=
  [(40, 0), (80, 5), (160, 10), (⊤, 15)]

/-- Visibility table `VISIBILITY_HEAVY_COVER`. -/
def VISIBILITY_HEAVY_COVER : List StealthDistanceEntry :=
  [(10, 0), (20, 5), (40, 10), (⊤, 15)]

/-- Visibility table `VISIBILITY_WATER`. -/
def VISIBILITY_WATER : List StealthDistanceEntry :=
  [(⊤, -10)]

/-- Visibility table `VISIBILITY_URBAN`. -/
def VISIBILITY_URBAN : List StealthDistanceEntry :=
  [(20, 0), (40, 5), (80, 10), (⊤, 15)]

/-- Factory `createTerrainType` from the design document. -/
def createTerrainType (name : String) (baseTravelTimeMs : ℤ)
    (stealthDistanceTable : List StealthDistanceEntry)
    (navigationDifficulty : ℤ := 0) : TerrainType :=
  ⟨name, baseTravelTimeMs, stealthDistanceTable, navigationDifficulty⟩

/-- The for-loop body of `getStealthModifier`: return the modifier of the
first entry with `distanceFt <= maxDistance`, scanning in order. -/
def scanStealthTable : List StealthDistanceEntry → ℚ → Option ℤ
  | [], _ => none
  | entry :: rest, d =>
    if (d : WithTop ℚ) ≤ entry.1 then some entry.2 else scanStealthTable rest d

/-- Method `getStealthModifier` of a terrain: the in-order scan, with the
source's fallbacks (last modifier beyond all thresholds, `0` on an empty
table). -/
def getStealthModifier (t : TerrainType) (distanceFt : ℚ) : ℤ :=
  match scanStealthTable t.stealthDistanceTable distanceFt with
  | some m => m
  | none =>
    match t.stealthDistanceTable.getLast? with
    | some e => e.2
    | none => 0

/-- The built-in `undefined` terrain entry of `TERRAIN_TYPES`, also the
fallback of `getTerrainType`. -/
def undefinedTerrain : TerrainType :=
  createTerrainType "undefined" MovementCategory.EASY VISIBILITY_OPEN 10

/-- Registry `TERRAIN_TYPES` of the design document, as an association list
keyed by terrain name. -/
def TERRAIN_TYPES : List (String × TerrainType) :=
  [("undefined", undefinedTerrain),
   ("open_terrain", createTerrainType "open_terrain" MovementCategory.EASY VISIBILITY_OPEN 5),
   ("road", createTerrainType "road" MovementCategory.EASY VISIBILITY_OPEN 0),
   ("light_forest", createTerrainType "light_forest" MovementCategory.MODERATE VISIBILITY_LIGHT_COVER 10),
   ("rolling_hills", createTerrainType "rolling_hills" MovementCategory.MODERATE VISIBILITY_LIGHT_COVER 10),
   ("heavy_forest", createTerrainType "heavy_forest" MovementCategory.DIFFICULT VISIBILITY_HEAVY_COVER 15),
   ("jungle", createTerrainType "jungle" MovementCategory.DIFFICULT VISIBILITY_HEAVY_COVER 20),
   ("swamp", createTerrainType "swamp" MovementCategory.DIFFICULT VISIBILITY_HEAVY_COVER 20),
   ("mountain", createTerrainType "mountain" MovementCategory.DIFFICULT VISIBILITY_LIGHT_COVER 15),
   ("bog", createTerrainType "bog" MovementCategory.DIFFICULT VISIBILITY_LIGHT_COVER 15),
   ("alpine", createTerrainType "alpine" MovementCategory.EXTREME VISIBILITY_OPEN 10),
   ("scree", createTerrainType "scree" MovementCategory.EXTREME VISIBILITY_OPEN 10),
   ("water", createTerrainType "water" MovementCategory.IMPASSABLE VISIBILITY_WATER 0),
   ("urban", createTerrainType "urban" MovementCategory.EASY VISIBILITY_URBAN 0)]

/-- Lookup `getTerrainType`: the indexed access with the nullish fallback
to the `undefined` entry of the registry. -/
def getTerrainType (name : String) : TerrainType :=
  (TERRAIN_TYPES.lookup name).getD undefinedTerrain

/-- Persisted hex cell record (`HexCell` in the design document). The
timestamps are opaque strings in this model. -/
structure HexCell where
  id : String
  q : ℤ
  r : ℤ
  s : ℤ
  layer_id : ℤ
  terrain_type : String
  created_at : String
  updated_at : String
deriving DecidableEq, Repr

/-- Storage key of a hex cell: layer plus cube coordinate. -/
structure HexKey where
  layer : ℤ
  q : ℤ
  r : ℤ
  s : ℤ
deriving DecidableEq, BEq, Repr

/-- The sparse hex store: only explicitly written cells are present. The
file-per-cell provider of the design document is modelled as an association
list from keys to records. -/
abbrev HexStore := List (HexKey × HexCell)

/-- Key lookup in the store (the provider's file-exists check plus read). -/
def hexStoreFind (st : HexStore) (k : HexKey) : Option HexCell :=
  (st.find? fun e => e.1 == k).map Prod.snd

/-- Modelled from the spec: the default record created for a coordinate that
has never been written, with the implicit default terrain `undefined` and
the id shape `layer_.._q_.._r_.._s_..` of the design document's storage
example; timestamps are opaque and modelled as empty strings. -/
def defaultHexCell (layer q r s : ℤ) : HexCell :=
  ⟨"layer_" ++ toString layer ++ "_q_" ++ toString q ++ "_r_" ++ toString r
      ++ "_s_" ++ toString s,
   q, r, s, layer, "undefined", "", ""⟩

/-- Operation `IHexGridStorage.get`: returns the cell or `none` if not
found, after the provider's parity validation; it takes no store back out,
so it cannot write. -/
def hexStoreGet (st : HexStore) (layer q r s : ℤ) : Except String (Option HexCell) :=
  if q + r + s ≠ 0 then .error "Invalid coordinates: q + r + s must equal 0"
  else .ok (hexStoreFind st ⟨layer, q, r, s⟩)

/-- Operation `IHexGridStorage.get_or_create`, the handler of the GET
hex-cell endpoint: per its documented contract it gets the cell, creating
it with defaults if it does not exist; the returned store is the
possibly-extended one. -/
def hexStoreGetOrCreate (st : HexStore) (layer q r s : ℤ) :
    Except String (HexCell × HexStore) :=
  if q + r + s ≠ 0 then .error "Invalid coordinates: q + r + s must equal 0"
  else
    match hexStoreFind st ⟨layer, q, r, s⟩ with
    | some cell => .ok (cell, st)
    | none => .ok (defaultHexCell layer q r s,
        (⟨layer, q, r, s⟩, defaultHexCell layer q r s) :: st)

/-- Operation `IHexGridStorage.get_range`: all stored cells of the layer in
the coordinate rectangle; only persisted entries appear. -/
def hexStoreGetRange (st : HexStore) (layer minQ maxQ minR maxR : ℤ) : List HexCell :=
  (st.filter fun e => decide (e.1.layer = layer ∧ minQ ≤ e.1.q ∧ e.1.q ≤ maxQ ∧
    minR ≤ e.1.r ∧ e.1.r ≤ maxR)).map Prod.snd

lemma normZero_eq (n : ℤ) : normZero n = n := by
  unfold normZero; split <;> omega

lemma round_sub_le (x : ℝ) : (round x : ℝ) - x ≤ 1 / 2 := by
  rw [round_eq]
  have h := Int.floor_le (x + 1 / 2)
  push_cast at h ⊢
  linarith

lemma neg_half_lt_round_sub (x : ℝ) : -(1 / 2) < (round x : ℝ) - x := by
  rw [round_eq]
  have h := Int.lt_floor_add_one (x + 1 / 2)
  push_cast at h ⊢
  linarith

lemma term_sq_nonneg (d : ℤ) (e : ℝ) (he : |e| ≤ 1 / 2) :
    0 ≤ (d : ℝ) ^ 2 + 2 * d * e := by
  rcases eq_or_ne d 0 with h | h
  · subst h; simp
  · have h1 : (1 : ℝ) ≤ |(d : ℝ)| := by
      have := Int.one_le_abs h
      calc (1 : ℝ) = ((1 : ℤ) : ℝ) := by norm_num
      _ ≤ ((|d| : ℤ) : ℝ) := by exact_mod_cast this
      _ = |(d : ℝ)| := by push_cast; ring
    have h2 : |(d : ℝ) * e| ≤ |(d : ℝ)| * (1 / 2) := by
      rw [abs_mul]
      exact mul_le_mul_of_nonneg_left he (abs_nonneg _)
    nlinarith [neg_abs_le ((d : ℝ) * e), sq_abs (d : ℝ), abs_nonneg (d : ℝ)]

lemma term_k_pos (d : ℤ) (e ej : ℝ) (helb : -(1 / 2) < e) (heej : e ≤ ej)
    (hej : ej ≤ 1 / 2) :
    (-(d : ℝ)) * (1 - 2 * ej) ≤ (d : ℝ) ^ 2 + 2 * d * e := by
  rcases le_or_lt (d : ℝ) 0 with hd | hd
  · have hde : (d : ℝ) * ej ≤ (d : ℝ) * e := mul_le_mul_of_nonpos_left heej hd
    have hsq : (0 : ℝ) ≤ (d : ℝ) ^ 2 + (d : ℝ) := by
      have hz : (0 : ℤ) ≤ d ^ 2 + d := by nlinarith [sq_nonneg (d + 1)]
      exact_mod_cast hz
    nlinarith
  · have hd1 : (1 : ℝ) ≤ (d : ℝ) := by
      have : (1 : ℤ) ≤ d := by exact_mod_cast hd
      exact_mod_cast this
    nlinarith

lemma term_k_neg (d : ℤ) (e ej : ℝ) (heub : e ≤ 1 / 2) (hejle : ej ≤ e)
    (hej : -(1 / 2) < ej) :
    (d : ℝ) * (1 + 2 * ej) ≤ (d : ℝ) ^ 2 + 2 * d * e := by
  rcases le_or_lt 0 (d : ℝ) with hd | hd
  · have hde : (d : ℝ) * ej ≤ (d : ℝ) * e := mul_le_mul_of_nonneg_left hejle hd
    have hsq : (0 : ℝ) ≤ (d : ℝ) ^ 2 - (d : ℝ) := by
      have hz : (0 : ℤ) ≤ d ^ 2 - d := by nlinarith [sq_nonneg (d - 1)]
      exact_mod_cast hz
    nlinarith
  · have hd1 : (d : ℝ) ≤ -1 := by
      have hz : d < 0 := by exact_mod_cast hd
      have hz2 : d ≤ -1 := by omega
      exact_mod_cast hz2
    nlinarith

lemma nearest_ineq (ea eb ec : ℝ) (dA dB dC k : ℤ)
    (hea1 : -(1 / 2) < ea) (hea2 : ea ≤ 1 / 2)
    (heb1 : -(1 / 2) < eb) (heb2 : eb ≤ 1 / 2)
    (hec1 : -(1 / 2) < ec) (hec2 : ec ≤ 1 / 2)
    (hmax1 : |eb| ≤ |ea|) (hmax2 : |ec| ≤ |ea|)
    (hk : (k : ℝ) = ea + eb + ec)
    (hd : (dA : ℝ) + dB + dC = -(k : ℝ)) :
    (ea - k) ^ 2 + eb ^ 2 + ec ^ 2
      ≤ ((dA : ℝ) + ea) ^ 2 + ((dB : ℝ) + eb) ^ 2 + ((dC : ℝ) + ec) ^ 2 := by
  have hk1 : k ≤ 1 := by
    have : (k : ℝ) < 2 := by linarith
    exact_mod_cast Int.lt_add_one_iff.mp (by exact_mod_cast this)
  have hk2 : -1 ≤ k := by
    have : (-2 : ℝ) < (k : ℝ) := by linarith
    have h2 : (-2 : ℤ) < k := by exact_mod_cast this
    omega
  interval_cases k
  · -- k = -1 : the largest-error axis has the minimal (most negative) error
    have hea0 : ea ≤ 0 := by
      by_contra hpos
      push_neg at hpos
      have h1 : eb ≥ -|eb| := neg_abs_le eb
      have h2 : ec ≥ -|ec| := neg_abs_le ec
      have h3 : |ea| = ea := abs_of_pos hpos
      have hkR : (((-1 : ℤ) : ℝ)) = ea + eb + ec := hk
      push_cast at hkR
      linarith [hmax1, hmax2]
    have habs : |ea| = -ea := abs_of_nonpos hea0
    have hminb : ea ≤ eb := by
      have := neg_abs_le eb
      linarith [hmax1.trans_eq habs]
    have hminc : ea ≤ ec := by
      have := neg_abs_le ec
      linarith [hmax2.trans_eq habs]
    have t1 := term_k_neg dA ea ea hea2 le_rfl hea1
    have t2 := term_k_neg dB eb ea heb2 hminb hea1
    have t3 := term_k_neg dC ec ea hec2 hminc hea1
    have hdR : (dA : ℝ) + dB + dC = 1 := by push_cast at hd; linarith
    have hmul : ((dA : ℝ) + dB + dC) * ea = ea := by rw [hdR]; ring
    push_cast
    nlinarith [t1, t2, t3, hmul]
  · -- k = 0 : the componentwise rounding is already valid and optimal
    have t1 := term_sq_nonneg dA ea (abs_le.mpr ⟨hea1.le, hea2⟩)
    have t2 := term_sq_nonneg dB eb (abs_le.mpr ⟨heb1.le, heb2⟩)
    have t3 := term_sq_nonneg dC ec (abs_le.mpr ⟨hec1.le, hec2⟩)
    push_cast
    nlinarith [t1, t2, t3]
  · -- k = 1 : the largest-error axis has the maximal error
    have hea0 : 0 ≤ ea := by
      by_contra hneg
      push_neg at hneg
      have h1 : eb ≤ |eb| := le_abs_self eb
      have h2 : ec ≤ |ec| := le_abs_self ec
      have h3 : |ea| = -ea := abs_of_neg hneg
      have hkR : (((1 : ℤ) : ℝ)) = ea + eb + ec := hk
      push_cast at hkR
      linarith [hmax1, hmax2]
    have habs : |ea| = ea := abs_of_nonneg hea0
    have hmaxb : eb ≤ ea := by
      have := le_abs_self eb
      linarith [hmax1.trans_eq habs]
    have hmaxc : ec ≤ ea := by
      have := le_abs_self ec
      linarith [hmax2.trans_eq habs]
    have t1 := term_k_pos dA ea ea hea1 le_rfl hea2
    have t2 := term_k_pos dB eb ea heb1 hmaxb hea2
    have t3 := term_k_pos dC ec ea hec1 hmaxc hea2
    have hdR : (dA : ℝ) + dB + dC = -1 := by push_cast at hd; linarith
    have hmul : ((dA : ℝ) + dB + dC) * ea = -ea := by rw [hdR]; ring
    push_cast
    nlinarith [t1, t2, t3, hmul]

lemma hexRound_core (a b c : ℝ) (habc : a + b + c = 0) (A B C : ℤ)
    (hABC : A + B + C = 0)
    (hmax1 : |(round b : ℝ) - b| ≤ |(round a : ℝ) - a|)
    (hmax2 : |(round c : ℝ) - c| ≤ |(round a : ℝ) - a|) :
    (((-round b - round c : ℤ) : ℝ) - a) ^ 2 + ((round b : ℝ) - b) ^ 2
        + ((round c : ℝ) - c) ^ 2
      ≤ ((A : ℝ) - a) ^ 2 + ((B : ℝ) - b) ^ 2 + ((C : ℝ) - c) ^ 2 := by
  have h1 : ((-round b - round c : ℤ) : ℝ) - a
      = ((round a : ℝ) - a) - ((round a + round b + round c : ℤ) : ℝ) := by
    push_cast; ring
  have h2 : (A : ℝ) - a = ((A - round a : ℤ) : ℝ) + ((round a : ℝ) - a) := by
    push_cast; ring
  have h3 : (B : ℝ) - b = ((B - round b : ℤ) : ℝ) + ((round b : ℝ) - b) := by
    push_cast; ring
  have h4 : (C : ℝ) - c = ((C - round c : ℤ) : ℝ) + ((round c : ℝ) - c) := by
    push_cast; ring
  rw [h1, h2, h3, h4]
  apply nearest_ineq ((round a : ℝ) - a) ((round b : ℝ) - b) ((round c : ℝ) - c)
      (A - round a) (B - round b) (C - round c) (round a + round b + round c)
      (neg_half_lt_round_sub a) (round_sub_le a)
      (neg_half_lt_round_sub b) (round_sub_le b)
      (neg_half_lt_round_sub c) (round_sub_le c)
      hmax1 hmax2
  · push_cast
    linarith
  · have hR : (A : ℝ) + B + C = 0 := by exact_mod_cast hABC
    push_cast
    linarith

lemma sqrt3_pos : (0 : ℝ) < Real.sqrt 3 := Real.sqrt_pos.mpr (by norm_num)

lemma sqrt3_mul_self : Real.sqrt 3 * Real.sqrt 3 = 3 :=
  Real.mul_self_sqrt (by norm_num)

lemma HEX_SIZE_M_pos : (0 : ℝ) < HEX_SIZE_M := by
  unfold HEX_SIZE_M HEX_CENTER_SPACING_M
  positivity

lemma HEX_SIZE_M_ne : HEX_SIZE_M ≠ 0 := ne_of_gt HEX_SIZE_M_pos

lemma hexRound_intCast (a b : ℤ) : hexRound (a : ℝ) (b : ℝ) = ⟨a, b, -a - b⟩ := by
  have h3 : round (-(a : ℝ) - b) = -a - b := by
    rw [show -(a : ℝ) - b = ((-a - b : ℤ) : ℝ) by push_cast; ring, round_intCast]
  unfold hexRound
  rw [round_intCast, round_intCast, h3]
  have e1 : |((a : ℤ) : ℝ) - (a : ℝ)| = 0 := by simp
  have e2 : |((b : ℤ) : ℝ) - (b : ℝ)| = 0 := by simp
  have e3 : |((-a - b : ℤ) : ℝ) - (-(a : ℝ) - b)| = 0 := by
    rw [abs_eq_zero]; push_cast; ring
  rw [e1, e2, e3]
  norm_num [normZero_eq]

lemma pixelToHex_qFrac (hex : HexCoordinate) :
    (Real.sqrt 3 / 3 * (hexToPixel hex).x - 1 / 3 * (hexToPixel hex).y) / HEX_SIZE_M
      = ((hex.q : ℤ) : ℝ) := by
  unfold hexToPixel
  rw [div_eq_iff HEX_SIZE_M_ne]
  linear_combination (HEX_SIZE_M * ((hex.q : ℝ) + (hex.r : ℝ) / 2) / 3) * sqrt3_mul_self

lemma pixelToHex_rFrac (hex : HexCoordinate) :
    (2 / 3 * (hexToPixel hex).y) / HEX_SIZE_M = ((hex.r : ℤ) : ℝ) := by
  unfold hexToPixel
  rw [div_eq_iff HEX_SIZE_M_ne]
  ring

/-- C1: for every valid cube coordinate, at any distance from the origin,
converting the hex to projected meters and back with `pixelToHex` after
`hexToPixel` returns exactly the same coordinate. -/
theorem pixelToHex_hexToPixel_roundtrip (hex : HexCoordinate)
    (h : hex.q + hex.r + hex.s = 0) :
    pixelToHex (hexToPixel hex).x (hexToPixel hex).y = hex := by
  unfold pixelToHex
  rw [pixelToHex_qFrac, pixelToHex_rFrac, hexRound_intCast]
  cases hex with
  | mk q r s => simp only at h ⊢; congr 1; omega

/-- Witness for C1 at a coordinate far from the origin. -/
theorem pixelToHex_hexToPixel_roundtrip_witness :
    (35 : ℤ) + (-17) + (-18) = 0 ∧
      pixelToHex (hexToPixel ⟨35, -17, -18⟩).x (hexToPixel ⟨35, -17, -18⟩).y
        = ⟨35, -17, -18⟩ :=
  ⟨by decide, pixelToHex_hexToPixel_roundtrip ⟨35, -17, -18⟩ (by decide)⟩

lemma hexRound_sum (qF rF : ℝ) :
    (hexRound qF rF).q + (hexRound qF rF).r + (hexRound qF rF).s = 0 := by
  unfold hexRound
  split_ifs <;> simp only [normZero_eq] <;> ring

/-- C2: for every real-valued input, the coordinate returned by
`pixelToHex` (computed via `hexRound`) satisfies the cube invariant
`q + r + s = 0`. -/
theorem pixelToHex_valid (x y : ℝ) :
    (pixelToHex x y).q + (pixelToHex x y).r + (pixelToHex x y).s = 0 := by
  unfold pixelToHex
  exact hexRound_sum _ _

/-- C5: for every integer layer and valid coordinate, `getHexId` returns
exactly the canonical string of the specification (determinism is inherent:
it is a pure function of its arguments); in particular the coordinate
`(3, -2, -1)` at layer 0 yields `hex:l0:q3:r-2:s-1`. -/
theorem getHexId_canonical (layer : ℤ) (hex : HexCoordinate)
    (h : hex.q + hex.r + hex.s = 0) :
    getHexId hex layer = specCanonicalId layer hex ∧
      getHexId ⟨3, -2, -1⟩ 0 = "hex:l0:q3:r-2:s-1" :=
  ⟨rfl, rfl⟩

/-- Witness for C5 at layer 0 and the coordinate from the spec. -/
theorem getHexId_canonical_witness :
    (3 : ℤ) + (-2) + (-1) = 0 ∧
      (getHexId ⟨3, -2, -1⟩ 0 = specCanonicalId 0 ⟨3, -2, -1⟩ ∧
        getHexId ⟨3, -2, -1⟩ 0 = "hex:l0:q3:r-2:s-1") :=
  ⟨by decide, getHexId_canonical 0 ⟨3, -2, -1⟩ (by decide)⟩

/-- C4 counterexample: contrary to the claim, `getHexId` does not fail on
an invalid triple — an ID string is produced for `(1, 1, 1)` even though
`1 + 1 + 1 ≠ 0`. -/
theorem getHexId_invalid_counterexample :
    (1 : ℤ) + 1 + 1 ≠ 0 ∧ getHexId ⟨1, 1, 1⟩ 1 = "hex:l1:q1:r1:s1" :=
  ⟨by decide, rfl⟩

/-- C4 (amended): `getHexId` performs no validation: even for a triple
that fails `isValidHexCoordinate`, it still returns the canonical-format ID
string; no `InvalidCoordinate` failure path exists in the generator. -/
theorem getHexId_no_validation (layer : ℤ) (hex : HexCoordinate)
    (h : isValidHexCoordinate hex = false) :
    getHexId hex layer = specCanonicalId layer hex :=
  rfl

/-- Witness for the amended C4 at an invalid triple. -/
theorem getHexId_no_validation_witness :
    isValidHexCoordinate ⟨1, 1, 1⟩ = false ∧
      getHexId ⟨1, 1, 1⟩ 0 = specCanonicalId 0 ⟨1, 1, 1⟩ :=
  ⟨by decide, getHexId_no_validation 0 ⟨1, 1, 1⟩ (by decide)⟩

lemma corner_dist (θ : ℝ) :
    Real.sqrt ((HEX_SIZE_M * Real.cos θ) ^ 2 + (HEX_SIZE_M * Real.sin θ) ^ 2)
      = HEX_SIZE_M := by
  have h : (HEX_SIZE_M * Real.cos θ) ^ 2 + (HEX_SIZE_M * Real.sin θ) ^ 2
      = HEX_SIZE_M ^ 2 := by
    linear_combination HEX_SIZE_M ^ 2 * Real.sin_sq_add_cos_sq θ
  rw [h, Real.sqrt_sq HEX_SIZE_M_pos.le]

/-- C6: `getHexCorners` returns exactly 6 points; the i-th point is the
center offset by `HEX_SIZE_M` in the direction of angle `30° + 60°·i`
(radians `π/180 · (60·i + 30)`), and every returned point is at Euclidean
distance `HEX_SIZE_M` from the center `hexToPixel hex`, for any hex. -/
theorem getHexCorners_spec (hex : HexCoordinate) (i : ℕ) (hi : i < 6) :
    (getHexCorners hex).length = 6 ∧
      (getHexCorners hex)[i]? = some
        ⟨(hexToPixel hex).x + HEX_SIZE_M * Real.cos (Real.pi / 180 * (60 * (i : ℝ) + 30)),
         (hexToPixel hex).y + HEX_SIZE_M * Real.sin (Real.pi / 180 * (60 * (i : ℝ) + 30))⟩ ∧
      ∀ p ∈ getHexCorners hex,
        Real.sqrt ((p.x - (hexToPixel hex).x) ^ 2 + (p.y - (hexToPixel hex).y) ^ 2)
          = HEX_SIZE_M := by
  refine ⟨rfl, ?_, ?_⟩
  · interval_cases i <;> rfl
  · intro p hp
    simp only [getHexCorners, List.mem_map, List.mem_range] at hp
    obtain ⟨j, _, rfl⟩ := hp
    simp only [add_sub_cancel_left]
    exact corner_dist _

/-- C3: `hexRound` returns a valid hex (sum zero), and among all valid
integer hexes it is one nearest to the fractional cube point: its squared
cube-space distance to `(qFrac, rFrac, -qFrac-rFrac)` is at most that of
every valid integer hex `H`. -/
theorem hexRound_nearest_valid (qFrac rFrac : ℝ) (H : HexCoordinate)
    (hH : H.q + H.r + H.s = 0) :
    (hexRound qFrac rFrac).q + (hexRound qFrac rFrac).r + (hexRound qFrac rFrac).s = 0 ∧
      cubeDistSq (hexRound qFrac rFrac) qFrac rFrac ≤ cubeDistSq H qFrac rFrac := by
  refine ⟨hexRound_sum qFrac rFrac, ?_⟩
  unfold cubeDistSq hexRound
  split_ifs with h1 h2
  · -- the q axis had the strictly largest rounding error and is recomputed
    simp only [normZero_eq]
    exact hexRound_core qFrac rFrac (-qFrac - rFrac) (by ring) H.q H.r H.s hH
      h1.1.le h1.2.le
  · -- the r axis is recomputed
    simp only [normZero_eq]
    have hq_le : |(round qFrac : ℝ) - qFrac| ≤ |(round rFrac : ℝ) - rFrac| := by
      rcases not_and_or.mp h1 with h | h
      · exact not_lt.mp h
      · exact (not_lt.mp h).trans h2.le
    have inst := hexRound_core rFrac qFrac (-qFrac - rFrac) (by ring) H.r H.q H.s
      (by omega) hq_le h2.le
    linarith [inst]
  · -- the s axis is recomputed
    simp only [normZero_eq]
    have hr_le : |(round rFrac : ℝ) - rFrac|
        ≤ |(round (-qFrac - rFrac) : ℝ) - (-qFrac - rFrac)| := not_lt.mp h2
    have hq_le : |(round qFrac : ℝ) - qFrac|
        ≤ |(round (-qFrac - rFrac) : ℝ) - (-qFrac - rFrac)| := by
      rcases not_and_or.mp h1 with h | h
      · exact (not_lt.mp h).trans hr_le
      · exact not_lt.mp h
    have inst := hexRound_core (-qFrac - rFrac) qFrac rFrac (by ring) H.s H.q H.r
      (by omega) hq_le hr_le
    linarith [inst]

/-- Witness for C3 at the fractional point `(0.3, 0.3)` against the origin. -/
theorem hexRound_nearest_valid_witness :
    (0 : ℤ) + 0 + 0 = 0 ∧
      ((hexRound 0.3 0.3).q + (hexRound 0.3 0.3).r + (hexRound 0.3 0.3).s = 0 ∧
        cubeDistSq (hexRound 0.3 0.3) 0.3 0.3 ≤ cubeDistSq ⟨0, 0, 0⟩ 0.3 0.3) :=
  ⟨by decide, hexRound_nearest_valid 0.3 0.3 ⟨0, 0, 0⟩ (by decide)⟩

/-- C7 counterexample: the GET endpoint (`get_or_create`) on a
never-written coordinate does write — on the empty store it creates the
default record, and a subsequent range query covering the coordinate
returns it. -/
theorem hexStore_read_materializes_counterexample :
    hexStoreGetOrCreate [] 0 0 0 0
        = .ok (defaultHexCell 0 0 0 0, [(⟨0, 0, 0, 0⟩, defaultHexCell 0 0 0 0)]) ∧
      hexStoreGetRange [(⟨0, 0, 0, 0⟩, defaultHexCell 0 0 0 0)] 0 (-1) 1 (-1) 1
        = [defaultHexCell 0 0 0 0] :=
  ⟨rfl, rfl⟩

/-- C7 (amended): the plain `get` on a never-written coordinate returns
`none` (and, taking no store out, cannot write), and a range query returns
only persisted entries; but the GET endpoint is `get_or_create`, which
creates the default record for a never-written coordinate, after which a
range query covering it does include it. -/
theorem hexStore_read_semantics (st : HexStore) (layer q r s : ℤ)
    (hv : q + r + s = 0)
    (hnone : hexStoreFind st ⟨layer, q, r, s⟩ = none) :
    hexStoreGet st layer q r s = .ok none ∧
      hexStoreGetOrCreate st layer q r s
        = .ok (defaultHexCell layer q r s,
            (⟨layer, q, r, s⟩, defaultHexCell layer q r s) :: st) ∧
      (∀ minQ maxQ minR maxR c, c ∈ hexStoreGetRange st layer minQ maxQ minR maxR →
        ∃ k, (k, c) ∈ st) ∧
      ∀ minQ maxQ minR maxR, minQ ≤ q → q ≤ maxQ → minR ≤ r → r ≤ maxR →
        defaultHexCell layer q r s ∈
          hexStoreGetRange ((⟨layer, q, r, s⟩, defaultHexCell layer q r s) :: st)
            layer minQ maxQ minR maxR := by
  have hv' : ¬(q + r + s ≠ 0) := by omega
  refine ⟨?_, ?_, ?_, ?_⟩
  · unfold hexStoreGet
    rw [if_neg hv', hnone]
  · unfold hexStoreGetOrCreate
    rw [if_neg hv', hnone]
  · intro minQ maxQ minR maxR c hc
    unfold hexStoreGetRange at hc
    obtain ⟨e, he, rfl⟩ := List.mem_map.mp hc
    exact ⟨e.1, by simpa using List.mem_of_mem_filter he⟩
  · intro minQ maxQ minR maxR h1 h2 h3 h4
    unfold hexStoreGetRange
    rw [List.filter_cons_of_pos]
    · exact List.mem_map.mpr ⟨_, List.mem_cons_self _ _, rfl⟩
    · simp only [decide_eq_true_eq]
      exact ⟨trivial, h1, h2, h3, h4⟩

/-- Witness for the amended C7 on the empty store at `(1, 0, -1)`. -/
theorem hexStore_read_semantics_witness :
    hexStoreGet [] 0 1 0 (-1) = .ok none ∧
      hexStoreGetOrCreate [] 0 1 0 (-1)
        = .ok (defaultHexCell 0 1 0 (-1),
            [(⟨0, 1, 0, -1⟩, defaultHexCell 0 1 0 (-1))]) ∧
      (∀ minQ maxQ minR maxR c, c ∈ hexStoreGetRange [] 0 minQ maxQ minR maxR →
        ∃ k, (k, c) ∈ ([] : HexStore)) ∧
      ∀ minQ maxQ minR maxR, minQ ≤ 1 → 1 ≤ maxQ → minR ≤ 0 → 0 ≤ maxR →
        defaultHexCell 0 1 0 (-1) ∈
          hexStoreGetRange [(⟨0, 1, 0, -1⟩, defaultHexCell 0 1 0 (-1))]
            0 minQ maxQ minR maxR :=
  hexStore_read_semantics [] 0 1 0 (-1) (by decide) rfl

/-- C8 counterexample: `plains` (the terrain name used in the design
document's own storage example) is not registered, yet the lookup does not
fail — it returns the built-in `undefined` terrain instead. -/
theorem getTerrainType_unregistered_counterexample :
    TERRAIN_TYPES.lookup "plains" = none ∧
      getTerrainType "plains" = undefinedTerrain :=
  ⟨rfl, rfl⟩

/-- C8 (amended): `getTerrainType` returns the registered terrain when the
name is present, and silently falls back to the built-in `undefined`
terrain (rather than failing) when it is not registered. -/
theorem getTerrainType_spec (name : String) :
    (∀ t, TERRAIN_TYPES.lookup name = some t → getTerrainType name = t) ∧
      (TERRAIN_TYPES.lookup name = none → getTerrainType name = undefinedTerrain) := by
  constructor
  · intro t ht
    unfold getTerrainType
    rw [ht]
    rfl
  · intro h
    unfold getTerrainType
    rw [h]
    rfl

/-- Witness for C8 (amended): a registered and an unregistered lookup. -/
theorem getTerrainType_spec_witness :
    getTerrainType "road"
        = createTerrainType "road" MovementCategory.EASY VISIBILITY_OPEN 0 ∧
      getTerrainType "lava" = undefinedTerrain :=
  ⟨(getTerrainType_spec "road").1 _ rfl, (getTerrainType_spec "lava").2 rfl⟩

lemma scanStealthTable_last_top (d : ℚ) :
    ∀ (l : List StealthDistanceEntry) (m : ℤ), l.getLast? = some (⊤, m) →
      ∃ e, l.find? (fun e => decide ((d : WithTop ℚ) ≤ e.1)) = some e ∧
        scanStealthTable l d = some e.2 := by
  intro l
  induction l with
  | nil => intro m hm; simp at hm
  | cons a l ih =>
    intro m hm
    cases l with
    | nil =>
      simp only [List.getLast?_singleton, Option.some_inj] at hm
      subst hm
      refine ⟨(⊤, m), ?_, ?_⟩
      · simp [List.find?]
      · simp [scanStealthTable]
    | cons b l2 =>
      rw [List.getLast?_cons_cons] at hm
      by_cases hle : (d : WithTop ℚ) ≤ a.1
      · exact ⟨a, by simp [List.find?, hle], by simp [scanStealthTable, hle]⟩
      · obtain ⟨e, he1, he2⟩ := ih m hm
        refine ⟨e, ?_, ?_⟩
        · rw [List.find?_cons_of_neg _ (by simpa using hle)]
          exact he1
        · rw [scanStealthTable, if_neg hle]
          exact he2

/-- C9: for a stealth table that is strictly ascending by max distance
with an unbounded final entry, `getStealthModifier` returns the modifier of
the first entry whose max distance is at least the queried distance, and
always yields such a value (the scan cannot fall through). -/
theorem getStealthModifier_first_match (t : TerrainType) (d : ℚ)
    (hasc : t.stealthDistanceTable.Pairwise (fun a b => a.1 < b.1))
    (hub : ∃ m, t.stealthDistanceTable.getLast? = some (⊤, m))
    (hd : 0 ≤ d) :
    ∃ e, t.stealthDistanceTable.find? (fun e => decide ((d : WithTop ℚ) ≤ e.1)) = some e ∧
      getStealthModifier t d = e.2 := by
  obtain ⟨m, hm⟩ := hub
  obtain ⟨e, he1, he2⟩ := scanStealthTable_last_top d t.stealthDistanceTable m hm
  refine ⟨e, he1, ?_⟩
  unfold getStealthModifier
  rw [he2]

/-- Witness for C9 on the urban visibility table at distance 30. -/
theorem getStealthModifier_first_match_witness :
    ∃ e, (createTerrainType "urban" MovementCategory.EASY VISIBILITY_URBAN
          0).stealthDistanceTable.find?
            (fun e => decide (((30 : ℚ) : WithTop ℚ) ≤ e.1)) = some e ∧
      getStealthModifier
          (createTerrainType "urban" MovementCategory.EASY VISIBILITY_URBAN 0) 30 = e.2 :=
  getStealthModifier_first_match _ 30 (by decide) ⟨15, rfl⟩ (by norm_num)

/-- Witness for C6 at the origin hex and corner index 0. -/
theorem getHexCorners_spec_witness :
    (getHexCorners ⟨0, 0, 0⟩).length = 6 ∧
      (getHexCorners ⟨0, 0, 0⟩)[0]? = some
        ⟨(hexToPixel ⟨0, 0, 0⟩).x + HEX_SIZE_M * Real.cos (Real.pi / 180 * (60 * ((0 : ℕ) : ℝ) + 30)),
         (hexToPixel ⟨0, 0, 0⟩).y + HEX_SIZE_M * Real.sin (Real.pi / 180 * (60 * ((0 : ℕ) : ℝ) + 30))⟩ ∧
      ∀ p ∈ getHexCorners ⟨0, 0, 0⟩,
        Real.sqrt ((p.x - (hexToPixel ⟨0, 0, 0⟩).x) ^ 2 + (p.y - (hexToPixel ⟨0, 0, 0⟩).y) ^ 2)
          = HEX_SIZE_M :=
  getHexCorners_spec ⟨0, 0, 0⟩ 0 (by decide)

lemma jsRound_val (x : ℝ) : (jsRound x).val = round x := rfl

lemma jsNeg_val (a : JSInt) : (jsNeg a).val = -a.val := by
  unfold jsNeg; split <;> simp_all

lemma jsSub_val (a b : JSInt) : (jsSub a b).val = a.val - b.val := by
  unfold jsSub; split <;> simp_all

lemma jsNormZero_val (a : JSInt) : (jsNormZero a).val = a.val := by
  unfold jsNormZero; split <;> simp_all

lemma jsRound_inv (x : ℝ) : (jsRound x).negZero = true → (jsRound x).val = 0 := by
  unfold jsRound; split <;> simp_all

lemma jsSub_inv (a b : JSInt) : (jsSub a b).negZero = true → (jsSub a b).val = 0 := by
  unfold jsSub; split <;> simp_all

lemma jsNormZero_negZero_false (a : JSInt) (h : a.negZero = true → a.val = 0) :
    (jsNormZero a).negZero = false := by
  unfold jsNormZero
  split_ifs with hv
  · rfl
  · cases ha : a.negZero
    · rfl
    · exact absurd (h ha) hv

lemma normJS_round_flag (x : ℝ) : (jsNormZero (jsRound x)).negZero = false :=
  jsNormZero_negZero_false _ (jsRound_inv x)

lemma normJS_sub_flag (a b : JSInt) : (jsNormZero (jsSub a b)).negZero = false :=
  jsNormZero_negZero_false _ (jsSub_inv a b)

/-- C10: no component of the coordinate returned by `pixelToHexJS` (the
sign-of-zero-aware model of `pixelToHex`) is negative zero — the final
normalisation converts every `-0` to `+0` — and the component values agree
with `pixelToHex`, so the origin hex is represented identically whichever
side of an axis the input point approached from. -/
theorem pixelToHexJS_no_negZero (x y : ℝ) :
    (pixelToHexJS x y).1.negZero = false ∧
      (pixelToHexJS x y).2.1.negZero = false ∧
      (pixelToHexJS x y).2.2.negZero = false ∧
      (pixelToHexJS x y).1.val = (pixelToHex x y).q ∧
      (pixelToHexJS x y).2.1.val = (pixelToHex x y).r ∧
      (pixelToHexJS x y).2.2.val = (pixelToHex x y).s := by
  unfold pixelToHexJS pixelToHex hexRoundJS hexRound
  simp only [jsRound_val]
  split_ifs <;>
    refine ⟨?_, ?_, ?_, ?_, ?_, ?_⟩ <;>
      first
        | exact normJS_sub_flag _ _
        | exact normJS_round_flag _
        | (simp only [jsNormZero_val, jsSub_val, jsNeg_val, jsRound_val, normZero_eq]
           try ring)
